import Mathlib

/-!
Verification of the paginated document layout engine in
`markdown-to-pdf-rust/src/pdf_renderer.rs`.

The renderer state (`PdfRenderer` plus the local variables of
`render_events`) is embedded as an explicit record; every `use_text` call
on a page layer is logged as a `Placement`.  Body-text placements (from
`add_text_at_position`, `add_code_block`, `add_inline_code`) are logged in
`placements`; the page-number footer stamped by `new_page` is logged in
`footers`.  Millimetre and point quantities (`f64` in the source) are
modelled as rationals; the `u32` counters use explicit `% 2^32` arithmetic
where underflow or overflow is reachable.
-/

namespace MdPdf

/-! ### Geometry and typography constants (`pdf_renderer.rs` lines 9-41) -/

def PAGE_WIDTH : ℚ := 210
def PAGE_HEIGHT : ℚ := 297
def MARGIN_TOP : ℚ := 25
def MARGIN_BOTTOM : ℚ := 25
def MARGIN_LEFT : ℚ := 25
def MARGIN_RIGHT : ℚ := 25

def TEXT_WIDTH : ℚ := PAGE_WIDTH - MARGIN_LEFT - MARGIN_RIGHT
def TEXT_HEIGHT : ℚ := PAGE_HEIGHT - MARGIN_TOP - MARGIN_BOTTOM

def FONT_SIZE_H1 : ℚ := 18
def FONT_SIZE_H2 : ℚ := 16
def FONT_SIZE_H3 : ℚ := 14
def FONT_SIZE_H4 : ℚ := 12
def FONT_SIZE_H5 : ℚ := 11
def FONT_SIZE_H6 : ℚ := 10
def FONT_SIZE_BODY : ℚ := 11
def FONT_SIZE_CODE : ℚ := 9

def LINE_HEIGHT_H1 : ℚ := 1.2
def LINE_HEIGHT_H2 : ℚ := 1.2
def LINE_HEIGHT_H3 : ℚ := 1.15
def LINE_HEIGHT_BODY : ℚ := 1.4
def LINE_HEIGHT_CODE : ℚ := 1.2

def PARAGRAPH_SPACING : ℚ := 6
def HEADING_SPACING_BEFORE : ℚ := 12
def HEADING_SPACING_AFTER : ℚ := 6
def CODE_BLOCK_SPACING : ℚ := 8

/-- The pt-to-mm conversion factor `0.352777778` used throughout the source. -/
def ptToMm : ℚ := 0.352777778

/-- Modulus of the `u32` counters (`page_number`, `list_level`). -/
def u32Mod : Nat := 4294967296

/-- Wrapping `u32` subtraction, for arguments below `u32Mod`. -/
def u32Sub (a b : Nat) : Nat := (a + u32Mod - b) % u32Mod

/-! ### Fonts, styles and events -/

/-- The five built-in font handles loaded in `PdfRenderer::new`. -/
inductive FontName where
  | regular
  | bold
  | italic
  | boldItalic
  | mono
deriving DecidableEq

/-- The `TextStyle` enumeration of the source. -/
inductive TextStyle where
  | H1
  | H2
  | H3
  | H4
  | H5
  | H6
  | Body
  | Code
  | Strong
  | Emphasis
deriving DecidableEq

/-- Heading levels of the external event type (`pulldown_cmark::HeadingLevel`). -/
inductive HeadingLevel where
  | h1
  | h2
  | h3
  | h4
  | h5
  | h6
deriving DecidableEq

/-- Start tags consumed by `render_events`; payload fields the renderer
ignores are dropped, and all tags it ignores collapse into `Other`. -/
inductive Tag where
  | Heading (level : HeadingLevel)
  | Paragraph
  | CodeBlock
  | List
  | Item
  | Strong
  | Emphasis
  | Other
deriving DecidableEq

/-- End tags consumed by `render_events` (ignored payloads dropped). -/
inductive TagEnd where
  | Heading
  | Paragraph
  | CodeBlock
  | List
  | Strong
  | Emphasis
  | Other
deriving DecidableEq

/-- The event stream shape consumed by `render_events`. -/
inductive Event where
  | Start (tag : Tag)
  | End (tag : TagEnd)
  | Text (t : String)
  | Code (t : String)
  | SoftBreak
  | HardBreak
  | Other
deriving DecidableEq

/-- One `use_text` call: the string, font, size and position it was issued
with, and the page it targets. -/
structure Placement where
  page : Nat
  text : String
  font : FontName
  size : ℚ
  x : ℚ
  y : ℚ
deriving DecidableEq

/-- The renderer state: the fields of `PdfRenderer` together with the local
mutable context of `render_events` (`text_stack`, `in_code_block`,
`list_level`), plus the logs of issued `use_text` calls. -/
structure RenderState where
  currentY : ℚ
  pageNumber : Nat
  fontSize : ℚ
  lineHeight : ℚ
  textStack : List TextStyle
  inCodeBlock : Bool
  listLevel : Nat
  placements : List Placement
  footers : List Placement
deriving DecidableEq

/-! ### String helpers modelling the Rust string primitives -/

/-- UTF-8 byte length of a character list, modelling Rust `str::len`. -/
def utf8Len : List Char → Nat
  | [] => 0
  | c :: cs => c.utf8Size + utf8Len cs

/-- UTF-8 byte length of a string (Rust `String::len`). -/
def strLen (s : String) : Nat := utf8Len s.data

/-- Accumulator pass of `split_whitespace`: `acc` holds the current word
reversed; whitespace ends a word, empty pieces are dropped. -/
def splitWhitespaceAux : List Char → List Char → List String
  | [], acc => if acc = [] then [] else [⟨acc.reverse⟩]
  | c :: cs, acc =>
    if c.isWhitespace then
      if acc = [] then splitWhitespaceAux cs []
      else ⟨acc.reverse⟩ :: splitWhitespaceAux cs []
    else splitWhitespaceAux cs (c :: acc)

/-- Rust `str::split_whitespace` collected into a vector. -/
def splitWords (s : String) : List String := splitWhitespaceAux s.data []

/-- Finish one physical line for `str::lines`: the accumulator holds the
line reversed; a trailing carriage return (from `\r\n`) is stripped. -/
def finishLine (acc : List Char) : String :=
  ⟨(if acc.head? = some '\x0d' then acc.tail else acc).reverse⟩

/-- Accumulator pass of Rust `str::lines`: split at `'\n'`, strip a
trailing `'\r'` from each line, no empty line after a final newline. -/
def rustLinesAux : List Char → List Char → List String
  | [], acc => if acc = [] then [] else [finishLine acc]
  | c :: cs, acc =>
    if c = '\n' then finishLine acc :: rustLinesAux cs []
    else rustLinesAux cs (c :: acc)

/-- Rust `str::lines` collected into a vector (`add_code_block` line 307). -/
def rustLines (s : String) : List String := rustLinesAux s.data []

/-- Rust `str::trim`: drop leading and trailing whitespace. -/
def trimStr (s : String) : String :=
  ⟨((s.data.dropWhile Char.isWhitespace).reverse.dropWhile Char.isWhitespace).reverse⟩

/-! ### The renderer operations -/

/-- The footer string `format!("- \x7b\x7d -", page_number)`. -/
def footerText (n : Nat) : String := "- " ++ toString n ++ " -"

/-- The footer `use_text` call issued by `new_page` for page `n`:
regular font, 8 pt, at `(PAGE_WIDTH/2 - 10, MARGIN_BOTTOM/2)`. -/
def footerPlacement (n : Nat) : Placement :=
  { page := n, text := footerText n, font := FontName.regular, size := 8,
    x := PAGE_WIDTH / 2 - 10, y := MARGIN_BOTTOM / 2 }

/-- Embeds `PdfRenderer::new`: one page, cursor at the top margin, Body style,
page number 1, nothing placed (no footer is stamped on page 1). -/
def initState : RenderState :=
  { currentY := PAGE_HEIGHT - MARGIN_TOP, pageNumber := 1,
    fontSize := FONT_SIZE_BODY, lineHeight := LINE_HEIGHT_BODY,
    textStack := [], inCodeBlock := false, listLevel := 0,
    placements := [], footers := [] }

/-- Embeds `PdfRenderer::new_page`: increment the page counter, reset the cursor
to the top margin, and stamp the footer of the new page. -/
def newPage (s : RenderState) : RenderState :=
  { s with pageNumber := s.pageNumber + 1,
           currentY := PAGE_HEIGHT - MARGIN_TOP,
           footers := s.footers ++ [footerPlacement (s.pageNumber + 1)] }

/-- Embeds `PdfRenderer::ensure_space`. -/
def ensureSpace (s : RenderState) (space : ℚ) : RenderState :=
  if s.currentY - space < MARGIN_BOTTOM then newPage s
  else { s with currentY := s.currentY - space }

/-- Embeds `PdfRenderer::new_line`: reserve one line height (pt converted to mm). -/
def newLine (s : RenderState) : RenderState :=
  ensureSpace s (s.fontSize * s.lineHeight * ptToMm)

/-- Embeds `PdfRenderer::get_font_for_style`. -/
def getFontForStyle (style : TextStyle) : FontName :=
  match style with
  | TextStyle.Code => FontName.mono
  | TextStyle.Strong => FontName.bold
  | TextStyle.Emphasis => FontName.italic
  | TextStyle.H1 | TextStyle.H2 | TextStyle.H3 => FontName.bold
  | _ => FontName.regular

/-- Embeds `PdfRenderer::set_text_style`; Strong and Emphasis fall through the
catch-all arm and change nothing. -/
def setTextStyle (s : RenderState) (style : TextStyle) : RenderState :=
  match style with
  | TextStyle.H1 => { s with fontSize := FONT_SIZE_H1, lineHeight := LINE_HEIGHT_H1 }
  | TextStyle.H2 => { s with fontSize := FONT_SIZE_H2, lineHeight := LINE_HEIGHT_H2 }
  | TextStyle.H3 => { s with fontSize := FONT_SIZE_H3, lineHeight := LINE_HEIGHT_H3 }
  | TextStyle.H4 => { s with fontSize := FONT_SIZE_H4, lineHeight := LINE_HEIGHT_BODY }
  | TextStyle.H5 => { s with fontSize := FONT_SIZE_H5, lineHeight := LINE_HEIGHT_BODY }
  | TextStyle.H6 => { s with fontSize := FONT_SIZE_H6, lineHeight := LINE_HEIGHT_BODY }
  | TextStyle.Body => { s with fontSize := FONT_SIZE_BODY, lineHeight := LINE_HEIGHT_BODY }
  | TextStyle.Code => { s with fontSize := FONT_SIZE_CODE, lineHeight := LINE_HEIGHT_CODE }
  | _ => s

/-- Embeds `PdfRenderer::add_text_at_position`: one `use_text` call at the given
position with the current size and, always, `get_font_for_style(Body)`. -/
def addTextAtPosition (s : RenderState) (text : String) (x y : ℚ) : RenderState :=
  { s with placements := s.placements ++
      [{ page := s.pageNumber, text := text, font := getFontForStyle TextStyle.Body,
         size := s.fontSize, x := x, y := y }] }

/-- The `max_chars` bound of `wrap_text`: `(max_width / approx_char_width) as usize`
with `approx_char_width = font_size * 0.5 * 0.352777778` (the `as usize`
cast of an `f64` saturates at 0 from below). -/
def maxCharsFor (fontSize maxWidth : ℚ) : Nat :=
  (⌊maxWidth / (fontSize * 0.5 * ptToMm)⌋).toNat

/-- The greedy word-packing loop of `wrap_text`: lengths are UTF-8 byte
lengths as in Rust, a word joins the current line only when line, one
space and word fit in `maxChars`. -/
def wrapLoop (maxChars : Nat) : List String → String → List String → List String
  | [], currentLine, lines =>
    let lines := if currentLine ≠ "" then lines ++ [currentLine] else lines
    if lines = [] then [""] else lines
  | word :: ws, currentLine, lines =>
    if strLen currentLine + strLen word + 1 > maxChars ∧ currentLine ≠ "" then
      wrapLoop maxChars ws word (lines ++ [currentLine])
    else
      wrapLoop maxChars ws
        (if currentLine = "" then word else currentLine ++ " " ++ word) lines

/-- Embeds `PdfRenderer::wrap_text` (the caller passes its current font size). -/
def wrapText (fontSize : ℚ) (text : String) (maxWidth : ℚ) : List String :=
  wrapLoop (maxCharsFor fontSize maxWidth) (splitWords text) "" []

/-- One iteration of the loop in `add_text_with_indent`: place the line at
`(MARGIN_LEFT + indent, current_y)` unless it trims to nothing, then
always advance one line. -/
def addTextLine (indent : ℚ) (st : RenderState) (line : String) : RenderState :=
  newLine (if trimStr line ≠ "" then
             addTextAtPosition st line (MARGIN_LEFT + indent) st.currentY
           else st)

/-- Embeds `PdfRenderer::add_text_with_indent`. -/
def addTextWithIndent (s : RenderState) (text : String) (indent : ℚ) : RenderState :=
  (wrapText s.fontSize text (TEXT_WIDTH - indent)).foldl (addTextLine indent) s

/-- Embeds `PdfRenderer::add_text`. -/
def addText (s : RenderState) (text : String) : RenderState :=
  addTextWithIndent s text 0

/-- One iteration of the loop in `add_code_block`: place the physical line
verbatim in the monospace font at `(MARGIN_LEFT + 5, current_y)`, then
advance one line. -/
def addCodeLine (st : RenderState) (line : String) : RenderState :=
  newLine { st with placements := st.placements ++
    [{ page := st.pageNumber, text := line, font := FontName.mono,
       size := st.fontSize, x := MARGIN_LEFT + 5, y := st.currentY }] }

/-- Embeds `PdfRenderer::add_code_block`. -/
def addCodeBlock (s : RenderState) (code : String) : RenderState :=
  (rustLines code).foldl addCodeLine s

/-- Embeds `PdfRenderer::add_inline_code`: one monospace `use_text` call at 90% of
the current size, at the left margin, no cursor advance. -/
def addInlineCode (s : RenderState) (code : String) : RenderState :=
  { s with placements := s.placements ++
      [{ page := s.pageNumber, text := code, font := FontName.mono,
         size := s.fontSize * 0.9, x := MARGIN_LEFT, y := s.currentY }] }

/-- The style selected for a heading level (`render_events` lines 107-114). -/
def styleOfHeading (level : HeadingLevel) : TextStyle :=
  match level with
  | HeadingLevel.h1 => TextStyle.H1
  | HeadingLevel.h2 => TextStyle.H2
  | HeadingLevel.h3 => TextStyle.H3
  | HeadingLevel.h4 => TextStyle.H4
  | HeadingLevel.h5 => TextStyle.H5
  | HeadingLevel.h6 => TextStyle.H6

/-- One iteration of the event loop in `render_events`.  Note for
`Start(Item)` the source computes `(list_level - 1) as f64 * 10.0` on the
`u32` counter, a wrapping subtraction at depth 0, and for `End(List)` it
uses `saturating_sub`. -/
def processEvent (s : RenderState) (ev : Event) : RenderState :=
  match ev with
  | Event.Start tag =>
    match tag with
    | Tag.Heading level =>
        setTextStyle (ensureSpace s HEADING_SPACING_BEFORE) (styleOfHeading level)
    | Tag.Paragraph =>
        setTextStyle (ensureSpace s (PARAGRAPH_SPACING / 2)) TextStyle.Body
    | Tag.CodeBlock =>
        setTextStyle { ensureSpace s CODE_BLOCK_SPACING with inCodeBlock := true }
          TextStyle.Code
    | Tag.List =>
        ensureSpace { s with listLevel := (s.listLevel + 1) % u32Mod }
          (PARAGRAPH_SPACING / 2)
    | Tag.Item =>
        let indent : ℚ := (u32Sub s.listLevel 1 : Nat) * 10
        let bullet := if s.listLevel = 1 then "•" else "◦"
        addTextAtPosition s bullet (MARGIN_LEFT + indent) s.currentY
    | Tag.Strong => { s with textStack := TextStyle.Strong :: s.textStack }
    | Tag.Emphasis => { s with textStack := TextStyle.Emphasis :: s.textStack }
    | Tag.Other => s
  | Event.End tag =>
    match tag with
    | TagEnd.Heading =>
        setTextStyle (ensureSpace s HEADING_SPACING_AFTER) TextStyle.Body
    | TagEnd.Paragraph =>
        ensureSpace s (PARAGRAPH_SPACING / 2)
    | TagEnd.CodeBlock =>
        setTextStyle
          (ensureSpace { s with inCodeBlock := false } CODE_BLOCK_SPACING)
          TextStyle.Body
    | TagEnd.List =>
        ensureSpace { s with listLevel := s.listLevel - 1 } (PARAGRAPH_SPACING / 2)
    | TagEnd.Strong => { s with textStack := s.textStack.tail }
    | TagEnd.Emphasis => { s with textStack := s.textStack.tail }
    | TagEnd.Other => s
  | Event.Text t =>
    if s.inCodeBlock then addCodeBlock s t
    else addTextWithIndent s t
      (if s.listLevel > 0 then ((s.listLevel : Nat) : ℚ) * 10 else 0)
  | Event.Code c => addInlineCode s c
  | Event.SoftBreak => addText s " "
  | Event.HardBreak => newLine s
  | Event.Other => s

/-- Embeds `PdfRenderer::render_events`: one linear pass over the event stream. -/
def renderEvents (events : List Event) (s : RenderState) : RenderState :=
  events.foldl processEvent s

/-! ### Invariants used by the theorems -/

/-- The footers stamped so far cover every page after the first. -/
def HasFooters (s : RenderState) : Prop :=
  ∀ k, 2 ≤ k → k ≤ s.pageNumber → footerPlacement k ∈ s.footers

/-- The vertical cursor lies between the bottom margin and the top margin. -/
def CursorInBounds (s : RenderState) : Prop :=
  MARGIN_BOTTOM ≤ s.currentY ∧ s.currentY ≤ PAGE_HEIGHT - MARGIN_TOP

/-- The current style has positive font size and line-height multiplier. -/
def StyleWF (s : RenderState) : Prop :=
  0 < s.fontSize ∧ 0 < s.lineHeight

/-- Well-formedness carried through the render pass. -/
def StateWF (s : RenderState) : Prop :=
  CursorInBounds s ∧ StyleWF s

/-! ### Field-preservation lemmas -/

@[simp] lemma newPage_fontSize (s : RenderState) : (newPage s).fontSize = s.fontSize := rfl

@[simp] lemma newPage_lineHeight (s : RenderState) : (newPage s).lineHeight = s.lineHeight := rfl

@[simp] lemma newPage_placements (s : RenderState) : (newPage s).placements = s.placements := rfl

@[simp] lemma newPage_listLevel (s : RenderState) : (newPage s).listLevel = s.listLevel := rfl

@[simp] lemma newPage_textStack (s : RenderState) : (newPage s).textStack = s.textStack := rfl

@[simp] lemma newPage_inCodeBlock (s : RenderState) : (newPage s).inCodeBlock = s.inCodeBlock := rfl

@[simp] lemma newPage_pageNumber (s : RenderState) : (newPage s).pageNumber = s.pageNumber + 1 := rfl

@[simp] lemma newPage_currentY (s : RenderState) : (newPage s).currentY = PAGE_HEIGHT - MARGIN_TOP := rfl

@[simp] lemma newPage_footers (s : RenderState) :
    (newPage s).footers = s.footers ++ [footerPlacement (s.pageNumber + 1)] := rfl

@[simp] lemma ensureSpace_fontSize (s : RenderState) (a : ℚ) :
    (ensureSpace s a).fontSize = s.fontSize := by
  unfold ensureSpace; split <;> rfl

@[simp] lemma ensureSpace_lineHeight (s : RenderState) (a : ℚ) :
    (ensureSpace s a).lineHeight = s.lineHeight := by
  unfold ensureSpace; split <;> rfl

@[simp] lemma ensureSpace_placements (s : RenderState) (a : ℚ) :
    (ensureSpace s a).placements = s.placements := by
  unfold ensureSpace; split <;> rfl

@[simp] lemma ensureSpace_listLevel (s : RenderState) (a : ℚ) :
    (ensureSpace s a).listLevel = s.listLevel := by
  unfold ensureSpace; split <;> rfl

@[simp] lemma ensureSpace_textStack (s : RenderState) (a : ℚ) :
    (ensureSpace s a).textStack = s.textStack := by
  unfold ensureSpace; split <;> rfl

@[simp] lemma ensureSpace_inCodeBlock (s : RenderState) (a : ℚ) :
    (ensureSpace s a).inCodeBlock = s.inCodeBlock := by
  unfold ensureSpace; split <;> rfl

lemma ensureSpace_pageNumber_le (s : RenderState) (a : ℚ) :
    s.pageNumber ≤ (ensureSpace s a).pageNumber := by
  unfold ensureSpace; split
  · exact Nat.le_succ _
  · exact Nat.le_refl _

/-- The function `ensure_space` either breaks to a new page (exactly when the space does
not fit) or just lowers the cursor. -/
lemma ensureSpace_cases (s : RenderState) (a : ℚ) :
    (s.currentY - a < MARGIN_BOTTOM ∧ ensureSpace s a = newPage s) ∨
    (¬ s.currentY - a < MARGIN_BOTTOM ∧
      ensureSpace s a = { s with currentY := s.currentY - a }) := by
  unfold ensureSpace; split
  · exact Or.inl ⟨by assumption, rfl⟩
  · exact Or.inr ⟨by assumption, rfl⟩

@[simp] lemma newLine_fontSize (s : RenderState) : (newLine s).fontSize = s.fontSize :=
  ensureSpace_fontSize s _

@[simp] lemma newLine_lineHeight (s : RenderState) : (newLine s).lineHeight = s.lineHeight :=
  ensureSpace_lineHeight s _

@[simp] lemma newLine_placements (s : RenderState) : (newLine s).placements = s.placements :=
  ensureSpace_placements s _

@[simp] lemma setTextStyle_currentY (s : RenderState) (st : TextStyle) :
    (setTextStyle s st).currentY = s.currentY := by
  cases st <;> rfl

@[simp] lemma setTextStyle_pageNumber (s : RenderState) (st : TextStyle) :
    (setTextStyle s st).pageNumber = s.pageNumber := by
  cases st <;> rfl

@[simp] lemma setTextStyle_placements (s : RenderState) (st : TextStyle) :
    (setTextStyle s st).placements = s.placements := by
  cases st <;> rfl

@[simp] lemma setTextStyle_footers (s : RenderState) (st : TextStyle) :
    (setTextStyle s st).footers = s.footers := by
  cases st <;> rfl

@[simp] lemma addTextAtPosition_currentY (s : RenderState) (t : String) (x y : ℚ) :
    (addTextAtPosition s t x y).currentY = s.currentY := rfl

@[simp] lemma addTextAtPosition_footers (s : RenderState) (t : String) (x y : ℚ) :
    (addTextAtPosition s t x y).footers = s.footers := rfl

@[simp] lemma addTextAtPosition_pageNumber (s : RenderState) (t : String) (x y : ℚ) :
    (addTextAtPosition s t x y).pageNumber = s.pageNumber := rfl

/-- Generic preservation of a predicate along a left fold. -/
lemma foldl_preserve {σ α : Type} {P : σ → Prop} {f : σ → α → σ}
    (hf : ∀ st x, P st → P (f st x)) :
    ∀ (l : List α) (st : σ), P st → P (l.foldl f st)
  | [], _, h => h
  | x :: xs, st, h => foldl_preserve hf xs (f st x) (hf st x h)

/-! ### Pagination lemmas (claim C3) -/

lemma foldl_ensureSpace_pageNumber_le (l : List ℚ) :
    ∀ s : RenderState, s.pageNumber ≤ (l.foldl ensureSpace s).pageNumber := by
  induction l with
  | nil => exact fun s => Nat.le_refl _
  | cons a as ih =>
      intro s
      exact Nat.le_trans (ensureSpace_pageNumber_le s a) (ih (ensureSpace s a))

/-- If the whole fold never breaks to a new page, the cursor has dropped by
exactly the total reserved height and (unless nothing was reserved) still
clears the bottom margin. -/
lemma foldl_ensureSpace_no_break (l : List ℚ) :
    ∀ s : RenderState, (l.foldl ensureSpace s).pageNumber = s.pageNumber →
      (l.foldl ensureSpace s).currentY = s.currentY - l.sum ∧
      (l = [] ∨ MARGIN_BOTTOM ≤ (l.foldl ensureSpace s).currentY) := by
  induction l with
  | nil => intro s _; simp
  | cons a as ih =>
      intro s hpn
      simp only [List.foldl_cons] at hpn ⊢
      have hstep : (ensureSpace s a).pageNumber = s.pageNumber := by
        have h1 := ensureSpace_pageNumber_le s a
        have h2 := foldl_ensureSpace_pageNumber_le as (ensureSpace s a)
        omega
      rcases ensureSpace_cases s a with ⟨_, heq⟩ | ⟨hfit, heq⟩
      · rw [heq] at hstep; simp at hstep
      · rw [heq] at hpn ⊢
        have := ih { s with currentY := s.currentY - a } hpn
        refine ⟨?_, Or.inr ?_⟩
        · rw [this.1]; simp [List.sum_cons]; ring
        · rcases this.2 with hnil | hle
          · subst hnil
            simpa using not_lt.mp hfit
          · exact hle

/-! ### List-nesting lemmas (claim C9) -/

@[simp] lemma processEvent_startList_listLevel (s : RenderState) :
    (processEvent s (Event.Start Tag.List)).listLevel = (s.listLevel + 1) % u32Mod := by
  simp [processEvent]

@[simp] lemma processEvent_endList_listLevel (s : RenderState) :
    (processEvent s (Event.End TagEnd.List)).listLevel = s.listLevel - 1 := by
  simp [processEvent]

lemma foldl_startList_listLevel (n : Nat) :
    ∀ s : RenderState, s.listLevel + n < u32Mod →
      ((List.replicate n (Event.Start Tag.List)).foldl processEvent s).listLevel =
        s.listLevel + n := by
  induction n with
  | zero => intro s _; simp
  | succ n ih =>
      intro s hlt
      rw [List.replicate_succ, List.foldl_cons]
      have hlvl : (processEvent s (Event.Start Tag.List)).listLevel = s.listLevel + 1 := by
        rw [processEvent_startList_listLevel, Nat.mod_eq_of_lt (by omega)]
      rw [ih (processEvent s (Event.Start Tag.List)) (by omega), hlvl]
      omega

lemma foldl_endList_listLevel (m : Nat) :
    ∀ s : RenderState,
      ((List.replicate m (Event.End TagEnd.List)).foldl processEvent s).listLevel =
        s.listLevel - m := by
  induction m with
  | zero => intro s; simp
  | succ m ih =>
      intro s
      rw [List.replicate_succ, List.foldl_cons, ih, processEvent_endList_listLevel]
      omega

/-! ### Claim theorems -/

/-- C3 (confirmed): a sequence of positive `ensure_space` reservations whose
total exceeds `PAGE_HEIGHT - MARGIN_TOP - MARGIN_BOTTOM` (247 mm) always
breaks to a new page, so the finished document has more than one page; and
`ensure_space` breaks exactly when `cursor - amount < MARGIN_BOTTOM`,
otherwise it just decrements the cursor. -/
theorem ensure_space_pagination (amounts : List ℚ)
    (hpos : ∀ a ∈ amounts, 0 < a)
    (hsum : PAGE_HEIGHT - MARGIN_TOP - MARGIN_BOTTOM < amounts.sum) :
    1 < (amounts.foldl ensureSpace initState).pageNumber ∧
    (∀ s a, s.currentY - a < MARGIN_BOTTOM → ensureSpace s a = newPage s) ∧
    (∀ s a, ¬ s.currentY - a < MARGIN_BOTTOM →
      ensureSpace s a = { s with currentY := s.currentY - a }) := by
  refine ⟨?_, ?_, ?_⟩
  · by_contra hle
    have hinit : initState.pageNumber = 1 := rfl
    have hmono := foldl_ensureSpace_pageNumber_le amounts initState
    rw [hinit] at hmono
    have hpn : (amounts.foldl ensureSpace initState).pageNumber = initState.pageNumber := by
      rw [hinit]; omega
    have h := foldl_ensureSpace_no_break amounts initState hpn
    have hY : initState.currentY = 272 := by norm_num [initState, PAGE_HEIGHT, MARGIN_TOP]
    have hsum' : (247 : ℚ) < amounts.sum := by
      have := hsum
      norm_num [PAGE_HEIGHT, MARGIN_TOP, MARGIN_BOTTOM] at this
      exact this
    rcases h.2 with hnil | hbound
    · subst hnil; simp at hsum'; linarith
    · rw [h.1, hY] at hbound
      have : (MARGIN_BOTTOM : ℚ) = 25 := by norm_num [MARGIN_BOTTOM]
      rw [this] at hbound
      linarith
  · intro s a h; unfold ensureSpace; rw [if_pos h]
  · intro s a h; unfold ensureSpace; rw [if_neg h]

/-- Witness for C3: three reservations of 100 mm exceed 247 mm and force a
second page. -/
theorem ensure_space_pagination_witness :
    (∀ a ∈ ([100, 100, 100] : List ℚ), 0 < a) ∧
    PAGE_HEIGHT - MARGIN_TOP - MARGIN_BOTTOM < ([100, 100, 100] : List ℚ).sum ∧
    1 < (([100, 100, 100] : List ℚ).foldl ensureSpace initState).pageNumber :=
  ⟨by norm_num, by norm_num [PAGE_HEIGHT, MARGIN_TOP, MARGIN_BOTTOM],
   (ensure_space_pagination [100, 100, 100]
     (by norm_num)
     (by norm_num [PAGE_HEIGHT, MARGIN_TOP, MARGIN_BOTTOM])).1⟩

/-- C9 (confirmed): an `End(List)` event always decrements the nesting
depth with saturation at zero, and a stream of `n` list starts followed by
`m` list ends leaves depth `n - m` (truncated subtraction), i.e. zero
whenever `m ≥ n`. -/
theorem list_depth_floor (n m : Nat) (hn : n < u32Mod) :
    (∀ s : RenderState, (processEvent s (Event.End TagEnd.List)).listLevel = s.listLevel - 1) ∧
    (renderEvents
        (List.replicate n (Event.Start Tag.List) ++ List.replicate m (Event.End TagEnd.List))
        initState).listLevel = n - m := by
  refine ⟨fun s => processEvent_endList_listLevel s, ?_⟩
  unfold renderEvents
  rw [List.foldl_append]
  rw [foldl_endList_listLevel]
  rw [foldl_startList_listLevel n initState (by simpa [initState] using hn)]
  simp [initState]

/-- Witness for C9: one start followed by three ends saturates at depth 0. -/
theorem list_depth_floor_witness :
    1 < u32Mod ∧
    (renderEvents
        (List.replicate 1 (Event.Start Tag.List) ++
          List.replicate 3 (Event.End TagEnd.List))
        initState).listLevel = 1 - 3 :=
  ⟨by norm_num [u32Mod], (list_depth_floor 1 3 (by norm_num [u32Mod])).2⟩

/-- C6 counterexample: after the prefix `[Start(Heading H1), End(Paragraph)]`
the active style is still H1 (18 pt), not Body (11 pt) — `End(Paragraph)`
never resets the style. -/
theorem style_reset_counterexample :
    (renderEvents [Event.Start (Tag.Heading HeadingLevel.h1), Event.End TagEnd.Paragraph]
        initState).fontSize = FONT_SIZE_H1 ∧
    (renderEvents [Event.Start (Tag.Heading HeadingLevel.h1), Event.End TagEnd.Paragraph]
        initState).fontSize ≠ FONT_SIZE_BODY := by
  constructor <;>
    norm_num +decide [renderEvents, processEvent, initState, ensureSpace, newPage,
      setTextStyle, styleOfHeading, HEADING_SPACING_BEFORE, PARAGRAPH_SPACING,
      MARGIN_BOTTOM, PAGE_HEIGHT, MARGIN_TOP, FONT_SIZE_H1, LINE_HEIGHT_H1,
      FONT_SIZE_BODY, LINE_HEIGHT_BODY]

/-- C6 (amended): immediately after `End(Heading)` or `End(CodeBlock)` the
active style is Body (11 pt, line-height 1.4) regardless of prior state;
`End(Paragraph)` leaves the active style unchanged (it is Body in
well-formed streams only because `Start(Paragraph)` set it). -/
theorem style_reset_amended (s : RenderState) :
    (processEvent s (Event.End TagEnd.Heading)).fontSize = FONT_SIZE_BODY ∧
    (processEvent s (Event.End TagEnd.Heading)).lineHeight = LINE_HEIGHT_BODY ∧
    (processEvent s (Event.End TagEnd.CodeBlock)).fontSize = FONT_SIZE_BODY ∧
    (processEvent s (Event.End TagEnd.CodeBlock)).lineHeight = LINE_HEIGHT_BODY ∧
    (processEvent s (Event.End TagEnd.Paragraph)).fontSize = s.fontSize ∧
    (processEvent s (Event.End TagEnd.Paragraph)).lineHeight = s.lineHeight := by
  refine ⟨rfl, rfl, rfl, rfl, ?_, ?_⟩ <;> simp [processEvent]

/-- C5 counterexample: a `Start(Item)` with no enclosing list is not a safe
saturating use of the nesting counter: the `u32` expression
`list_level - 1` wraps to `2^32 - 1`, so the bullet is placed at
`x = 25 + (2^32 - 1) * 10` mm instead of the left margin. -/
theorem malformed_item_counterexample :
    ∃ p ∈ (renderEvents [Event.Start Tag.Item] initState).placements,
      p.x = MARGIN_LEFT + 4294967295 * 10 ∧ p.x ≠ MARGIN_LEFT := by
  norm_num +decide [renderEvents, processEvent, initState, addTextAtPosition, u32Sub,
    u32Mod, getFontForStyle, MARGIN_LEFT, PAGE_HEIGHT, MARGIN_TOP, FONT_SIZE_BODY,
    LINE_HEIGHT_BODY]

/-- C5 (amended): unmatched `End(Strong)`/`End(Emphasis)` events pop the
empty style stack as a no-op and `End(List)` at depth zero saturates at
zero; but `Start(Item)` at depth zero is not saturating — its `u32` indent
computation wraps to `2^32 - 1`, placing the bullet at
`x = 25 + (2^32 - 1) * 10` mm (a panic under debug assertions). -/
theorem malformed_events_amended (s : RenderState) :
    (processEvent { s with textStack := [] } (Event.End TagEnd.Strong)).textStack = [] ∧
    (processEvent { s with textStack := [] } (Event.End TagEnd.Emphasis)).textStack = [] ∧
    (processEvent { s with listLevel := 0 } (Event.End TagEnd.List)).listLevel = 0 ∧
    processEvent { s with listLevel := 0 } (Event.Start Tag.Item) =
      addTextAtPosition { s with listLevel := 0 } "◦"
        (MARGIN_LEFT + ((4294967295 : Nat) : ℚ) * 10)
        ({ s with listLevel := 0 } : RenderState).currentY := by
  refine ⟨by simp [processEvent], by simp [processEvent], by simp [processEvent], ?_⟩
  have h : u32Sub 0 1 = 4294967295 := by norm_num [u32Sub, u32Mod]
  simp [processEvent, h]

/-! ### Word-wrap lemmas (claim C4) -/

lemma string_data_append (a b : String) : (a ++ b).data = a.data ++ b.data := by
  cases a; cases b; rfl

lemma utf8Len_append (a b : List Char) : utf8Len (a ++ b) = utf8Len a + utf8Len b := by
  induction a with
  | nil => simp [utf8Len]
  | cons c cs ih => simp [utf8Len, ih]; omega

lemma strLen_append (a b : String) : strLen (a ++ b) = strLen a + strLen b := by
  unfold strLen; rw [string_data_append, utf8Len_append]

lemma length_le_utf8Len (l : List Char) : l.length ≤ utf8Len l := by
  induction l with
  | nil => simp [utf8Len]
  | cons c cs ih =>
      have := Char.utf8Size_pos c
      simp only [List.length_cons, utf8Len]
      omega

lemma length_le_strLen (s : String) : s.length ≤ strLen s :=
  length_le_utf8Len s.data

/-- Every line the greedy loop produces is within the byte budget or
satisfies the word predicate `R` (instantiated with membership in the
input word list). -/
lemma wrapLoop_bound (maxChars : Nat) (R : String → Prop) :
    ∀ (ws : List String) (cur : String) (lines : List String),
      (∀ l ∈ lines, strLen l ≤ maxChars ∨ R l) →
      (cur = "" ∨ strLen cur ≤ maxChars ∨ R cur) →
      (∀ w ∈ ws, R w) →
      ∀ l ∈ wrapLoop maxChars ws cur lines, strLen l ≤ maxChars ∨ R l := by
  intro ws
  induction ws with
  | nil =>
      intro cur lines hlines hcur _ l hl
      by_cases hc : cur = ""
      · subst hc
        simp only [wrapLoop, ne_eq, not_true_eq_false, if_neg, ite_false] at hl
        split at hl
        · simp only [List.mem_singleton] at hl
          subst hl
          exact Or.inl (Nat.zero_le _)
        · exact hlines l hl
      · simp only [wrapLoop, ne_eq, hc, not_false_eq_true, if_true, ite_true] at hl
        split at hl
        · simp_all
        · rcases List.mem_append.mp hl with h | h
          · exact hlines l h
          · simp only [List.mem_singleton] at h
            subst h
            rcases hcur with h | h
            · exact absurd h hc
            · exact h
  | cons w ws ih =>
      intro cur lines hlines hcur hws l hl
      simp only [wrapLoop] at hl
      split at hl
      · rename_i hcond
        refine ih w (lines ++ [cur]) ?_ ?_ ?_ l hl
        · intro l' hl'
          rcases List.mem_append.mp hl' with h | h
          · exact hlines l' h
          · simp only [List.mem_singleton] at h
            subst h
            rcases hcur with h | h
            · exact absurd h hcond.2
            · exact h
        · exact Or.inr (Or.inr (hws w (List.mem_cons_self w ws)))
        · exact fun w' hw' => hws w' (List.mem_cons_of_mem w hw')
      · rename_i hcond
        by_cases hc : cur = ""
        · refine ih (if cur = "" then w else cur ++ " " ++ w) lines hlines ?_
            (fun w' hw' => hws w' (List.mem_cons_of_mem w hw')) l hl
          rw [if_pos hc]
          exact Or.inr (Or.inr (hws w (List.mem_cons_self w ws)))
        · have hfit : strLen cur + strLen w + 1 ≤ maxChars := by
            by_contra hgt
            exact hcond ⟨Nat.lt_of_not_le hgt, hc⟩
          refine ih (if cur = "" then w else cur ++ " " ++ w) lines hlines ?_
            (fun w' hw' => hws w' (List.mem_cons_of_mem w hw')) l hl
          rw [if_neg hc]
          refine Or.inr (Or.inl ?_)
          rw [strLen_append, strLen_append]
          have hsp : strLen " " = 1 := by decide
          rw [hsp]
          omega

/-- C4 (confirmed): every line produced by `wrap_text` for width `W` and
font size `S` has at most `floor(W / (S * 0.5 * 0.352777778))` characters,
except that an overlong single word stands alone as a line of its own
(the line is then literally one of the whitespace-delimited input words). -/
theorem wrap_text_bound (fontSize maxWidth : ℚ) (text : String) :
    ∀ line ∈ wrapText fontSize text maxWidth,
      line.length ≤ maxCharsFor fontSize maxWidth ∨ line ∈ splitWords text := by
  intro line hline
  have h := wrapLoop_bound (maxCharsFor fontSize maxWidth) (fun l => l ∈ splitWords text)
    (splitWords text) "" [] (by simp) (Or.inl rfl) (fun w hw => hw) line hline
  rcases h with h | h
  · exact Or.inl (le_trans (length_le_strLen line) h)
  · exact Or.inr h

/-- Witness for C4 at `wrap(11pt, "hello world", 160mm)`. -/
theorem wrap_text_bound_witness :
    "hello world" ∈ wrapText 11 "hello world" 160 ∧
    ("hello world".length ≤ maxCharsFor 11 160 ∨ "hello world" ∈ splitWords "hello world") := by
  have h82 : maxCharsFor 11 160 = 82 := by norm_num [maxCharsFor, ptToMm]; rfl
  have hmem : "hello world" ∈ wrapText 11 "hello world" 160 := by
    unfold wrapText
    rw [h82]
    decide
  exact ⟨hmem, wrap_text_bound 11 160 "hello world" "hello world" hmem⟩

/-! ### Footer coverage (claim C1) -/

lemma hasFooters_newPage {s : RenderState} (h : HasFooters s) : HasFooters (newPage s) := by
  intro k h2 hk
  rw [newPage_pageNumber] at hk
  rw [newPage_footers]
  rcases Nat.le_add_one_iff.mp hk with hle | heq
  · exact List.mem_append_left _ (h k h2 hle)
  · subst heq
    exact List.mem_append_right _ (List.mem_singleton.mpr rfl)

lemma hasFooters_ensureSpace {s : RenderState} (a : ℚ) (h : HasFooters s) :
    HasFooters (ensureSpace s a) := by
  rcases ensureSpace_cases s a with ⟨_, heq⟩ | ⟨_, heq⟩ <;> rw [heq]
  · exact hasFooters_newPage h
  · exact h

lemma hasFooters_newLine {s : RenderState} (h : HasFooters s) : HasFooters (newLine s) :=
  hasFooters_ensureSpace _ h

lemma hasFooters_setTextStyle {s : RenderState} (st : TextStyle) (h : HasFooters s) :
    HasFooters (setTextStyle s st) := by
  cases st <;> exact h

lemma hasFooters_addTextAtPosition {s : RenderState} (t : String) (x y : ℚ)
    (h : HasFooters s) : HasFooters (addTextAtPosition s t x y) := h

lemma hasFooters_addTextLine {st : RenderState} (indent : ℚ) (line : String)
    (h : HasFooters st) : HasFooters (addTextLine indent st line) := by
  unfold addTextLine
  split
  · exact hasFooters_newLine (hasFooters_addTextAtPosition _ _ _ h)
  · exact hasFooters_newLine h

lemma hasFooters_addTextWithIndent {s : RenderState} (text : String) (indent : ℚ)
    (h : HasFooters s) : HasFooters (addTextWithIndent s text indent) :=
  foldl_preserve (fun _ line hst => hasFooters_addTextLine indent line hst) _ s h

lemma hasFooters_addCodeLine {st : RenderState} (line : String)
    (h : HasFooters st) : HasFooters (addCodeLine st line) :=
  hasFooters_newLine h

lemma hasFooters_addCodeBlock {s : RenderState} (code : String)
    (h : HasFooters s) : HasFooters (addCodeBlock s code) :=
  foldl_preserve (fun _ line hst => hasFooters_addCodeLine line hst) _ s h

lemma hasFooters_addInlineCode {s : RenderState} (code : String)
    (h : HasFooters s) : HasFooters (addInlineCode s code) := h

lemma hasFooters_processEvent {s : RenderState} (ev : Event) (h : HasFooters s) :
    HasFooters (processEvent s ev) := by
  cases ev with
  | Start tag =>
      cases tag with
      | Heading level => exact hasFooters_setTextStyle _ (hasFooters_ensureSpace _ h)
      | Paragraph => exact hasFooters_setTextStyle _ (hasFooters_ensureSpace _ h)
      | CodeBlock => exact hasFooters_setTextStyle _ (hasFooters_ensureSpace _ h)
      | List => exact hasFooters_ensureSpace _ h
      | Item => exact hasFooters_addTextAtPosition _ _ _ h
      | Strong => exact h
      | Emphasis => exact h
      | Other => exact h
  | End tag =>
      cases tag with
      | Heading => exact hasFooters_setTextStyle _ (hasFooters_ensureSpace _ h)
      | Paragraph => exact hasFooters_ensureSpace _ h
      | CodeBlock => exact hasFooters_setTextStyle _ (hasFooters_ensureSpace _ h)
      | List => exact hasFooters_ensureSpace _ h
      | Strong => exact h
      | Emphasis => exact h
      | Other => exact h
  | Text t =>
      show HasFooters (if s.inCodeBlock then _ else _)
      split
      · exact hasFooters_addCodeBlock _ h
      · exact hasFooters_addTextWithIndent _ _ h
  | Code c => exact hasFooters_addInlineCode _ h
  | SoftBreak => exact hasFooters_addTextWithIndent _ _ h
  | HardBreak => exact hasFooters_newLine h
  | Other => exact h

lemma hasFooters_init : HasFooters initState := by
  intro k h2 hk
  have : initState.pageNumber = 1 := rfl
  omega

/-- C1 counterexample: the empty event stream leaves a document with no
placements and no footers at all — in particular no page-1 footer. -/
theorem empty_stream_no_page1_footer :
    ¬ ∃ p ∈ ((renderEvents [] initState).footers ++ (renderEvents [] initState).placements),
        p.text = footerText 1 := by
  simp [renderEvents, initState]

/-- C1 (amended): every page from page 2 on receives its centred
page-number footer when it is created, but page 1 never gets one; an empty
event stream yields a one-page document with no content at all — not even
the page-1 footer. -/
theorem footer_on_every_later_page :
    (∀ events k, 2 ≤ k → k ≤ (renderEvents events initState).pageNumber →
        footerPlacement k ∈ (renderEvents events initState).footers) ∧
    (renderEvents [] initState).footers = [] ∧
    (renderEvents [] initState).placements = [] ∧
    (renderEvents [] initState).pageNumber = 1 := by
  refine ⟨?_, rfl, rfl, rfl⟩
  intro events
  exact foldl_preserve (fun _ ev hst => hasFooters_processEvent ev hst)
    events initState hasFooters_init

/-- Witness for C1 (amended): 21 headings overflow page 1, and page 2
carries its footer. -/
theorem footer_on_every_later_page_witness :
    2 ≤ 2 ∧
    2 ≤ (renderEvents (List.replicate 21 (Event.Start (Tag.Heading HeadingLevel.h1)))
          initState).pageNumber ∧
    footerPlacement 2 ∈
      (renderEvents (List.replicate 21 (Event.Start (Tag.Heading HeadingLevel.h1)))
        initState).footers := by
  have hpn : 2 ≤ (renderEvents (List.replicate 21 (Event.Start (Tag.Heading HeadingLevel.h1)))
      initState).pageNumber := by
    norm_num +decide [renderEvents, processEvent, initState, ensureSpace, newPage,
      setTextStyle, styleOfHeading, footerPlacement, footerText, HEADING_SPACING_BEFORE,
      MARGIN_BOTTOM, MARGIN_LEFT, PAGE_HEIGHT, MARGIN_TOP, PAGE_WIDTH, FONT_SIZE_H1,
      LINE_HEIGHT_H1, List.replicate]
  exact ⟨le_refl 2, hpn,
    footer_on_every_later_page.1
      (List.replicate 21 (Event.Start (Tag.Heading HeadingLevel.h1))) 2 (le_refl 2) hpn⟩

/-! ### Cursor bounds (claim C7) -/

lemma ptToMm_pos : 0 < ptToMm := by norm_num [ptToMm]

lemma cursorInBounds_newPage (s : RenderState) : CursorInBounds (newPage s) := by
  constructor <;> norm_num [newPage, MARGIN_BOTTOM, PAGE_HEIGHT, MARGIN_TOP]

lemma cursorInBounds_ensureSpace {s : RenderState} {a : ℚ}
    (h : CursorInBounds s) (ha : 0 < a) : CursorInBounds (ensureSpace s a) := by
  rcases ensureSpace_cases s a with ⟨_, heq⟩ | ⟨hfit, heq⟩ <;> rw [heq]
  · exact cursorInBounds_newPage s
  · constructor
    · exact not_lt.mp hfit
    · have h2 := h.2
      show s.currentY - a ≤ PAGE_HEIGHT - MARGIN_TOP
      linarith

lemma styleWF_ensureSpace {s : RenderState} (a : ℚ) (h : StyleWF s) :
    StyleWF (ensureSpace s a) := by
  unfold StyleWF
  rw [ensureSpace_fontSize, ensureSpace_lineHeight]
  exact h

lemma stateWF_ensureSpace {s : RenderState} {a : ℚ} (h : StateWF s) (ha : 0 < a) :
    StateWF (ensureSpace s a) :=
  ⟨cursorInBounds_ensureSpace h.1 ha, styleWF_ensureSpace a h.2⟩

lemma stateWF_newPage {s : RenderState} (h : StyleWF s) : StateWF (newPage s) :=
  ⟨cursorInBounds_newPage s, by
    unfold StyleWF
    rw [newPage_fontSize, newPage_lineHeight]
    exact h⟩

lemma stateWF_newLine {s : RenderState} (h : StateWF s) : StateWF (newLine s) :=
  stateWF_ensureSpace h (mul_pos (mul_pos h.2.1 h.2.2) ptToMm_pos)

lemma stateWF_setTextStyle {s : RenderState} (st : TextStyle) (h : StateWF s) :
    StateWF (setTextStyle s st) := by
  cases st <;>
    first
      | exact h
      | exact ⟨h.1, by
          constructor <;>
            norm_num [setTextStyle, FONT_SIZE_H1, FONT_SIZE_H2, FONT_SIZE_H3,
              FONT_SIZE_H4, FONT_SIZE_H5, FONT_SIZE_H6, FONT_SIZE_BODY, FONT_SIZE_CODE,
              LINE_HEIGHT_H1, LINE_HEIGHT_H2, LINE_HEIGHT_H3, LINE_HEIGHT_BODY,
              LINE_HEIGHT_CODE]⟩

lemma stateWF_addTextAtPosition {s : RenderState} (t : String) (x y : ℚ)
    (h : StateWF s) : StateWF (addTextAtPosition s t x y) := h

lemma stateWF_addTextLine {st : RenderState} (indent : ℚ) (line : String)
    (h : StateWF st) : StateWF (addTextLine indent st line) := by
  unfold addTextLine
  split
  · exact stateWF_newLine (stateWF_addTextAtPosition _ _ _ h)
  · exact stateWF_newLine h

lemma stateWF_addTextWithIndent {s : RenderState} (text : String) (indent : ℚ)
    (h : StateWF s) : StateWF (addTextWithIndent s text indent) :=
  foldl_preserve (fun _ line hst => stateWF_addTextLine indent line hst) _ s h

lemma stateWF_addCodeLine {st : RenderState} (line : String)
    (h : StateWF st) : StateWF (addCodeLine st line) :=
  stateWF_newLine h

lemma stateWF_addCodeBlock {s : RenderState} (code : String)
    (h : StateWF s) : StateWF (addCodeBlock s code) :=
  foldl_preserve (fun _ line hst => stateWF_addCodeLine line hst) _ s h

lemma stateWF_addInlineCode {s : RenderState} (code : String)
    (h : StateWF s) : StateWF (addInlineCode s code) := h

lemma stateWF_processEvent {s : RenderState} (ev : Event) (h : StateWF s) :
    StateWF (processEvent s ev) := by
  cases ev with
  | Start tag =>
      cases tag with
      | Heading level =>
          exact stateWF_setTextStyle _
            (stateWF_ensureSpace h (by norm_num [HEADING_SPACING_BEFORE]))
      | Paragraph =>
          exact stateWF_setTextStyle _
            (stateWF_ensureSpace h (by norm_num [PARAGRAPH_SPACING]))
      | CodeBlock =>
          exact stateWF_setTextStyle _
            (stateWF_ensureSpace h (by norm_num [CODE_BLOCK_SPACING]))
      | List => exact stateWF_ensureSpace h (by norm_num [PARAGRAPH_SPACING])
      | Item => exact stateWF_addTextAtPosition _ _ _ h
      | Strong => exact h
      | Emphasis => exact h
      | Other => exact h
  | End tag =>
      cases tag with
      | Heading =>
          exact stateWF_setTextStyle _
            (stateWF_ensureSpace h (by norm_num [HEADING_SPACING_AFTER]))
      | Paragraph => exact stateWF_ensureSpace h (by norm_num [PARAGRAPH_SPACING])
      | CodeBlock =>
          exact stateWF_setTextStyle _
            (stateWF_ensureSpace h (by norm_num [CODE_BLOCK_SPACING]))
      | List => exact stateWF_ensureSpace h (by norm_num [PARAGRAPH_SPACING])
      | Strong => exact h
      | Emphasis => exact h
      | Other => exact h
  | Text t =>
      show StateWF (if s.inCodeBlock then _ else _)
      split
      · exact stateWF_addCodeBlock _ h
      · exact stateWF_addTextWithIndent _ _ h
  | Code c => exact stateWF_addInlineCode _ h
  | SoftBreak => exact stateWF_addTextWithIndent _ _ h
  | HardBreak => exact stateWF_newLine h
  | Other => exact h

lemma stateWF_init : StateWF initState := by
  constructor
  · constructor <;> norm_num [initState, MARGIN_BOTTOM, PAGE_HEIGHT, MARGIN_TOP]
  · constructor <;> norm_num [initState, FONT_SIZE_BODY, LINE_HEIGHT_BODY]

lemma stateWF_renderEvents (events : List Event) : StateWF (renderEvents events initState) :=
  foldl_preserve (fun _ ev hst => stateWF_processEvent ev hst) events initState stateWF_init

/-- C7 (confirmed): the vertical cursor stays within
`[MARGIN_BOTTOM, PAGE_HEIGHT - MARGIN_TOP]` = [25, 272] mm: initially, after
any `ensure_space` with a positive amount from an in-bounds cursor, after
any `new_page`, after any placement call (which never moves the cursor),
and throughout the processing of any event stream. -/
theorem cursor_in_bounds :
    CursorInBounds initState ∧
    (∀ s a, CursorInBounds s → 0 < a → CursorInBounds (ensureSpace s a)) ∧
    (∀ s, CursorInBounds (newPage s)) ∧
    (∀ s t x y, (addTextAtPosition s t x y).currentY = s.currentY) ∧
    (∀ events, CursorInBounds (renderEvents events initState)) :=
  ⟨stateWF_init.1,
   fun _ _ h ha => cursorInBounds_ensureSpace h ha,
   cursorInBounds_newPage,
   fun s t x y => addTextAtPosition_currentY s t x y,
   fun events => (stateWF_renderEvents events).1⟩

/-- Witness for C7: the initial cursor is in bounds and stays so after
reserving 1 mm. -/
theorem cursor_in_bounds_witness :
    CursorInBounds initState ∧ (0 : ℚ) < 1 ∧ CursorInBounds (ensureSpace initState 1) :=
  ⟨cursor_in_bounds.1, by norm_num,
   cursor_in_bounds.2.1 initState 1
     (by constructor <;> norm_num [initState, CursorInBounds, MARGIN_BOTTOM, PAGE_HEIGHT, MARGIN_TOP])
     (by norm_num)⟩

/-! ### Code-block placement lemmas (claims C2 and C8) -/

@[simp] lemma addCodeLine_placements (st : RenderState) (line : String) :
    (addCodeLine st line).placements = st.placements ++
      [{ page := st.pageNumber, text := line, font := FontName.mono,
         size := st.fontSize, x := MARGIN_LEFT + 5, y := st.currentY }] := by
  simp [addCodeLine]

/-- The code-block loop appends exactly one monospace placement per line,
in order, with the line text verbatim. -/
lemma foldl_addCodeLine_spec (L : List String) :
    ∀ s : RenderState, ∃ new : List Placement,
      (L.foldl addCodeLine s).placements = s.placements ++ new ∧
      new.map Placement.text = L ∧
      new.map Placement.font = List.replicate L.length FontName.mono := by
  induction L with
  | nil => exact fun s => ⟨[], by simp, rfl, rfl⟩
  | cons l ls ih =>
      intro s
      obtain ⟨new, h1, h2, h3⟩ := ih (addCodeLine s l)
      refine ⟨{ page := s.pageNumber, text := l, font := FontName.mono,
                size := s.fontSize, x := MARGIN_LEFT + 5, y := s.currentY } :: new,
              ?_, ?_, ?_⟩
      · rw [List.foldl_cons, h1, addCodeLine_placements]
        simp
      · simp [h2]
      · simp [h3, List.replicate_succ]

/-- C8 (confirmed): a `Text` event inside a code block goes through
`add_code_block`, which emits exactly one placement per physical input
line, verbatim, in order, all in the monospace font, with no word-wrap. -/
theorem code_block_fidelity (s : RenderState) (t : String) :
    processEvent { s with inCodeBlock := true } (Event.Text t) =
      addCodeBlock { s with inCodeBlock := true } t ∧
    (addCodeBlock s t).placements.take s.placements.length = s.placements ∧
    ((addCodeBlock s t).placements.drop s.placements.length).map Placement.text =
      rustLines t ∧
    ((addCodeBlock s t).placements.drop s.placements.length).map Placement.font =
      List.replicate (rustLines t).length FontName.mono := by
  obtain ⟨new, h1, h2, h3⟩ := foldl_addCodeLine_spec (rustLines t) s
  have hpl : (addCodeBlock s t).placements = s.placements ++ new := h1
  refine ⟨rfl, ?_, ?_, ?_⟩
  · rw [hpl, List.take_left]
  · rw [hpl, List.drop_left, h2]
  · rw [hpl, List.drop_left, h3]

/-- C2 counterexample: with the active style H1 (set by `Start(Heading)`),
the heading text "T" is placed with the regular font, not bold —
`add_text_at_position` always resolves the font for `Body`. -/
theorem heading_font_counterexample :
    ∃ p ∈ (renderEvents [Event.Start (Tag.Heading HeadingLevel.h1), Event.Text "T"]
        initState).placements,
      p.text = "T" ∧ p.size = FONT_SIZE_H1 ∧ p.font ≠ FontName.bold := by
  norm_num +decide [renderEvents, processEvent, initState, ensureSpace, newPage, setTextStyle,
    addTextWithIndent, wrapText, maxCharsFor, ptToMm, addTextLine, addTextAtPosition,
    newLine, getFontForStyle, trimStr, splitWords, splitWhitespaceAux, wrapLoop, strLen,
    utf8Len, styleOfHeading, HEADING_SPACING_BEFORE, MARGIN_BOTTOM, MARGIN_LEFT,
    PAGE_HEIGHT, MARGIN_TOP, TEXT_WIDTH, PAGE_WIDTH, MARGIN_RIGHT, FONT_SIZE_H1,
    LINE_HEIGHT_H1, FONT_SIZE_BODY, LINE_HEIGHT_BODY]

/-- C2 (amended): `get_font_for_style` maps H1/H2/H3 and Strong to bold,
Emphasis to italic, Code to monospace and the rest to regular, but
`add_text_at_position` always queries it with `Body`, so every wrapped or
bullet text placement uses the regular font; code-block lines and inline
code are placed directly with the monospace font. -/
theorem font_selection_amended (s : RenderState) (text code : String) (x y : ℚ) :
    (getFontForStyle TextStyle.H1 = FontName.bold ∧
     getFontForStyle TextStyle.H2 = FontName.bold ∧
     getFontForStyle TextStyle.H3 = FontName.bold ∧
     getFontForStyle TextStyle.Strong = FontName.bold ∧
     getFontForStyle TextStyle.Emphasis = FontName.italic ∧
     getFontForStyle TextStyle.Code = FontName.mono ∧
     getFontForStyle TextStyle.H4 = FontName.regular ∧
     getFontForStyle TextStyle.H5 = FontName.regular ∧
     getFontForStyle TextStyle.H6 = FontName.regular ∧
     getFontForStyle TextStyle.Body = FontName.regular) ∧
    (addTextAtPosition s text x y).placements =
      s.placements ++ [{ page := s.pageNumber, text := text, font := FontName.regular,
                         size := s.fontSize, x := x, y := y }] ∧
    (addInlineCode s code).placements =
      s.placements ++ [{ page := s.pageNumber, text := code, font := FontName.mono,
                         size := s.fontSize * 0.9, x := MARGIN_LEFT, y := s.currentY }] ∧
    ((addCodeBlock s code).placements.drop s.placements.length).map Placement.font =
      List.replicate (rustLines code).length FontName.mono := by
  obtain ⟨new, h1, _, h3⟩ := foldl_addCodeLine_spec (rustLines code) s
  refine ⟨⟨rfl, rfl, rfl, rfl, rfl, rfl, rfl, rfl, rfl, rfl⟩, rfl, rfl, ?_⟩
  have hpl : (addCodeBlock s code).placements = s.placements ++ new := h1
  rw [hpl, List.drop_left, h3]

/-! ### Blank-run lemmas (claim C10) -/

lemma wrapText_of_no_words (fontSize maxWidth : ℚ) (text : String)
    (h : splitWords text = []) : wrapText fontSize text maxWidth = [""] := by
  unfold wrapText
  rw [h]
  simp [wrapLoop]

/-- C10 (confirmed): a whitespace-only text run outside a code block wraps
to exactly one empty line, places nothing, and still advances the cursor by
one current line height (possibly breaking the page); `SoftBreak` funnels
into the same path as the run `" "`. -/
theorem blank_run_consumes_line (s : RenderState) (text : String) (indent : ℚ)
    (h : splitWords text = []) :
    wrapText s.fontSize text (TEXT_WIDTH - indent) = [""] ∧
    addTextWithIndent s text indent = newLine s ∧
    (addTextWithIndent s text indent).placements = s.placements ∧
    processEvent { s with inCodeBlock := false } (Event.Text text) =
      addTextWithIndent { s with inCodeBlock := false } text
        (if s.listLevel > 0 then ((s.listLevel : Nat) : ℚ) * 10 else 0) ∧
    (∀ s2 : RenderState, processEvent s2 Event.SoftBreak = addTextWithIndent s2 " " 0) := by
  have hw := wrapText_of_no_words s.fontSize (TEXT_WIDTH - indent) text h
  have htrim : trimStr "" = "" := rfl
  have heq : addTextWithIndent s text indent = newLine s := by
    unfold addTextWithIndent
    rw [hw]
    simp [addTextLine, htrim]
  exact ⟨hw, heq, by rw [heq]; exact newLine_placements s, rfl, fun s2 => rfl⟩

/-- Witness for C10 at the run `" "`. -/
theorem blank_run_consumes_line_witness :
    splitWords " " = [] ∧
    wrapText initState.fontSize " " (TEXT_WIDTH - 0) = [""] ∧
    addTextWithIndent initState " " 0 = newLine initState :=
  ⟨by decide, (blank_run_consumes_line initState " " 0 (by decide)).1,
   (blank_run_consumes_line initState " " 0 (by decide)).2.1⟩

end MdPdf
